import Mathlib

/-!
Shallow embedding of the schema-driven form engine implemented in
`packages/firebase-autoform/src/firebase-autoform.js` (the `FirebaseAutoform`
custom element), together with theorems about its validation chain, value
store initialization, group partitioning and submission flow.

Modelling conventions:
* JavaScript runtime values that flow through the form are modelled by `JSVal`.
  JS numbers are modelled as `Int` (all numeric constants exercised by the
  program and its spec are integers).
* JS objects used as ordered string-keyed maps (`schema`, `_values`, `_errors`,
  a record supplied via `data`) are modelled as association lists
  `List (String × _)`; property assignment is `setKey` (update in place or
  append), `delete` is `delKey`, property read is `lookupKey`.  Object key
  uniqueness is carried as `Nodup` hypotheses where a theorem needs it.
* A thrown TypeError (reading `.length` of `null`/`undefined` inside
  `_validateField`) is modelled by `ExceptLean.error`; every other code path is
  total.
* The regex stored in a schema `pattern` is modelled as an opaque string
  predicate `String → Bool` (the compiled regex), `none` standing for an
  absent or empty (falsy) pattern string.
-/

set_option maxHeartbeats 1000000

deriving instance DecidableEq for Except

namespace Autoform

/-- JavaScript values that appear in the form state: strings, numbers
(modelled as `Int`), booleans, `null` and `undefined`. -/
inductive JSVal where
  | str (s : String)
  | num (n : Int)
  | bool (b : Bool)
  | null
  | undef
deriving DecidableEq, Repr

/-- JS truthiness of a value (used by `field.type === 'email' && value`,
`field.pattern && value`, `if (this.dataKey)` and similar guards). -/
def JSVal.truthy : JSVal → Bool
  | .str s => decide (s ≠ "")
  | .num n => decide (n ≠ 0)
  | .bool b => b
  | .null => false
  | .undef => false

/-- JS string coercion `String(value)` (used when a regex is applied to a
non-string value). -/
def JSVal.toStr : JSVal → String
  | .str s => s
  | .num n => toString n
  | .bool b => if b then "true" else "false"
  | .null => "null"
  | .undef => "undefined"

/-- Strip leading and trailing whitespace from a character sequence (the
trimming `Number(string)` performs). -/
def trimChars (l : List Char) : List Char :=
  ((l.dropWhile Char.isWhitespace).reverse.dropWhile Char.isWhitespace).reverse

/-- Value of a non-empty all-digit character sequence. -/
def digitsVal (l : List Char) : Option Nat :=
  if l ≠ [] ∧ l.all Char.isDigit then
    some (l.foldl (fun a c => a * 10 + (c.toNat - 48)) 0)
  else none

/-- Signed integer numeral parsing. -/
def intOfChars : List Char → Option Int
  | '-' :: rest => (digitsVal rest).map (fun n => -(n : Int))
  | '+' :: rest => (digitsVal rest).map (fun n => (n : Int))
  | l => (digitsVal l).map (fun n => (n : Int))

/-- JS numeric coercion `Number(string)`: a blank (all-whitespace) string
coerces to `0`, an integer numeral to its value, anything else (including
the non-integer numeric shapes this development never exercises) to NaN,
modelled as `none`. -/
def strToNumber (s : String) : Option Int :=
  match trimChars s.data with
  | [] => some 0
  | cs => intOfChars cs

/-- JS numeric coercion of a value for a relational comparison against a
number: `'' → 0`, `false → 0`, `true → 1`, `null → 0`, `undefined → NaN`. -/
def JSVal.toNum : JSVal → Option Int
  | .str s => strToNumber s
  | .num n => some n
  | .bool b => some (if b then 1 else 0)
  | .null => some 0
  | .undef => none

/-- Reading the `length` property of a value: defined for strings, the
`undefined` property (`none`) for numbers and booleans, and a thrown
TypeError (`Except.error`) for `null`/`undefined`. -/
def JSVal.lengthProp : JSVal → Except Unit (Option Int)
  | .str s => .ok (some (s.length : Int))
  | .num _ => .ok none
  | .bool _ => .ok none
  | .null => .error ()
  | .undef => .error ()

/-- Total variant of the `length` read used on the specification side:
`some` for strings, `none` (an undefined length) otherwise. -/
def jsLen : JSVal → Option Int
  | .str s => some (s.length : Int)
  | _ => none

/-- One entry of the form schema (`FieldSchema` in the source).  Only the
fields consulted by the validation / value-store / grouping / submission
logic are modelled; purely presentational fields (label, placeholder, help,
options, step, disabled, readonly) are omitted.  `type := ""` models an
absent `type`. -/
structure FieldSchema where
  type : String := ""
  required : Bool := false
  default : Option JSVal := none
  min : Option Int := none
  max : Option Int := none
  minLength : Option Int := none
  maxLength : Option Int := none
  pattern : Option (String → Bool) := none
  group : Option String := none

/-- JS truthiness of a numeric schema bound (`field.minLength && ...`):
`0` and an absent bound are falsy, every other number is truthy. -/
def numTruthy : Option Int → Bool
  | some n => decide (n ≠ 0)
  | none => false

/-- `value.length < bound` where either side may be undefined (NaN
comparisons are false). -/
def lenLt : Option Int → Option Int → Bool
  | some a, some b => decide (a < b)
  | _, _ => false

/-- `value.length > bound` where either side may be undefined. -/
def lenGt : Option Int → Option Int → Bool
  | some a, some b => decide (b < a)
  | _, _ => false

/-- JS relational comparison `value < bound` against a numeric bound:
the value is coerced to a number, NaN comparisons are false. -/
def jsLt (v : JSVal) (m : Option Int) : Bool :=
  match v.toNum, m with
  | some a, some b => decide (a < b)
  | _, _ => false

/-- JS relational comparison `value > bound` against a numeric bound. -/
def jsGt (v : JSVal) (m : Option Int) : Bool :=
  match v.toNum, m with
  | some a, some b => decide (b < a)
  | _, _ => false

/-- Character class `[^\s@]` of the email regex. -/
def emailChar (c : Char) : Bool := !c.isWhitespace && decide (c ≠ '@')

/-- `_isValidEmail`: the test `/^[^\s@]+@[^\s@]+\.[^\s@]+$/.test(email)`.
Exactly one `@`, a non-empty local part, and a domain containing a `.` that
is neither its first nor its last character; no whitespace or `@` anywhere. -/
def isValidEmail (s : String) : Bool :=
  match s.data.splitOn '@' with
  | [l, d] =>
    decide (l ≠ []) && l.all emailChar && d.all emailChar &&
      ((d.drop 1).dropLast).contains '.'
  | _ => false

/-- Application of the field's compiled `pattern` regex to the (string
coerced) value; `true` when no pattern is stored (the guard makes this case
unreachable). -/
def patTest (f : FieldSchema) (v : JSVal) : Bool :=
  match f.pattern with
  | some p => p v.toStr
  | none => true

/-- Rules 5–7 of `_validateField` (`min`, `max`, `pattern`): these never
throw, so they are a total tail of the chain. -/
def tailRules (f : FieldSchema) (v : JSVal) : Option String :=
  if f.min.isSome && jsLt v f.min then
    some ("Minimum value is " ++ toString (f.min.getD 0))
  else if f.max.isSome && jsGt v f.max then
    some ("Maximum value is " ++ toString (f.max.getD 0))
  else if f.pattern.isSome && v.truthy && !(patTest f v) then
    some "Invalid format"
  else none

/-- Rule 4 of `_validateField` (`maxLength`), followed by the tail rules.
Reading `value.length` throws for `null`/`undefined` values. -/
def maxLengthRule (f : FieldSchema) (v : JSVal) : Except Unit (Option String) :=
  if numTruthy f.maxLength then
    match v.lengthProp with
    | .error e => .error e
    | .ok l =>
      if lenGt l f.maxLength then
        .ok (some ("Maximum " ++ toString (f.maxLength.getD 0) ++ " characters allowed"))
      else .ok (tailRules f v)
  else .ok (tailRules f v)

/-- Rule 3 of `_validateField` (`minLength`), followed by the later rules. -/
def minLengthRule (f : FieldSchema) (v : JSVal) : Except Unit (Option String) :=
  if numTruthy f.minLength then
    match v.lengthProp with
    | .error e => .error e
    | .ok l =>
      if lenLt l f.minLength then
        .ok (some ("Minimum " ++ toString (f.minLength.getD 0) ++ " characters required"))
      else maxLengthRule f v
  else maxLengthRule f v

/-- `_validateField(fieldName, value)` restricted to its pure result: the
message stored for the field (`some`) or no message (`none`); `Except.error`
models the TypeError thrown when a length rule reads `.length` of a
`null`/`undefined` value. -/
def validateField (f : FieldSchema) (v : JSVal) : Except Unit (Option String) :=
  if f.required && (decide (v = JSVal.str "") || decide (v = JSVal.null) ||
      decide (v = JSVal.undef)) then
    .ok (some "This field is required")
  else if decide (f.type = "email") && v.truthy && !(isValidEmail v.toStr) then
    .ok (some "Please enter a valid email")
  else minLengthRule f v

/-- The seven validation rules of spec §4.2 in their stated priority order
(`0` = required, `1` = email format, `2` = minimum length, `3` = maximum
length, `4` = minimum value, `5` = maximum value, `6` = pattern), each with
its stated applicability guard. -/
def ruleViolated (f : FieldSchema) (v : JSVal) : Nat → Bool
  | 0 => f.required && (decide (v = JSVal.str "") || decide (v = JSVal.null) ||
      decide (v = JSVal.undef))
  | 1 => decide (f.type = "email") && v.truthy && !(isValidEmail v.toStr)
  | 2 => numTruthy f.minLength && lenLt (jsLen v) f.minLength
  | 3 => numTruthy f.maxLength && lenGt (jsLen v) f.maxLength
  | 4 => f.min.isSome && jsLt v f.min
  | 5 => f.max.isSome && jsGt v f.max
  | 6 => f.pattern.isSome && v.truthy && !(patTest f v)
  | _ => false

/-- The message produced by each rule of spec §4.2. -/
def ruleMessage (f : FieldSchema) : Nat → String
  | 0 => "This field is required"
  | 1 => "Please enter a valid email"
  | 2 => "Minimum " ++ toString (f.minLength.getD 0) ++ " characters required"
  | 3 => "Maximum " ++ toString (f.maxLength.getD 0) ++ " characters allowed"
  | 4 => "Minimum value is " ++ toString (f.min.getD 0)
  | 5 => "Maximum value is " ++ toString (f.max.getD 0)
  | _ => "Invalid format"

/-- The message of the first violated rule of the given list, in order. -/
def firstMsg (f : FieldSchema) (v : JSVal) : List Nat → Option String
  | [] => none
  | i :: rest => if ruleViolated f v i then some (ruleMessage f i) else firstMsg f v rest

/-- The message of the highest-priority violated rule, per the fixed
priority order of spec §4.2; `none` when no rule is violated. -/
def firstViolatedMsg (f : FieldSchema) (v : JSVal) : Option String :=
  firstMsg f v [0, 1, 2, 3, 4, 5, 6]

/-! ### Association lists as ordered JS objects -/

/-- JS property read `obj[k]` on an object modelled as an ordered
association list. -/
def lookupKey : List (String × α) → String → Option α
  | [], _ => none
  | p :: rest, k => if p.1 = k then some p.2 else lookupKey rest k

/-- JS property assignment `obj[k] = v`: overwrite in place when the key
exists, append otherwise. -/
def setKey : List (String × α) → String → α → List (String × α)
  | [], k, v => [(k, v)]
  | p :: rest, k, v => if p.1 = k then (k, v) :: rest else p :: setKey rest k v

/-- JS property deletion `delete obj[k]`. -/
def delKey : List (String × α) → String → List (String × α)
  | [], _ => []
  | p :: rest, k => if p.1 = k then rest else p :: delKey rest k

/-! ### Value store (`_initializeValues`) -/

/-- The seed value of one schema field: the declared `default` when present
(`undefined` excluded), else `false` for checkbox fields, else `''`. -/
def defaultValue (f : FieldSchema) : JSVal :=
  match f.default with
  | some v => v
  | none => if f.type = "checkbox" then JSVal.bool false else JSVal.str ""

/-- First loop of `_initializeValues`: set defaults from the schema, in
declaration order. -/
def seedValues (schema : List (String × FieldSchema)) : List (String × JSVal) :=
  schema.foldl (fun vs kf => setKey vs kf.1 (defaultValue kf.2)) []

/-- Second loop of `_initializeValues`: override with the existing record,
for every record key that is a schema key (`key in this.schema`). -/
def overrideData (schema : List (String × FieldSchema))
    (vs : List (String × JSVal)) (d : List (String × JSVal)) :
    List (String × JSVal) :=
  d.foldl
    (fun acc kv => if (lookupKey schema kv.1).isSome then setKey acc kv.1 kv.2 else acc)
    vs

/-- `_initializeValues`: the fresh value store derived from the schema and
the optional existing record (`this.data`, `null` modelled as `none`). -/
def initFormValues (schema : List (String × FieldSchema))
    (d : Option (List (String × JSVal))) : List (String × JSVal) :=
  match d with
  | none => seedValues schema
  | some rec0 => overrideData schema (seedValues schema) rec0

/-! ### Component state and events -/

/-- The reactive state of one `firebase-autoform` instance that the
submission flow reads and writes.  Defaults mirror the constructor. -/
structure FormState where
  schema : List (String × FieldSchema) := []
  values : List (String × JSVal) := []
  errors : List (String × String) := []
  data : Option (List (String × JSVal)) := none
  dataKey : String := ""
  path : String := ""
  hasDatabase : Bool := false
  globalError : String := ""
  showSuccessMessage : Bool := false
  showSuccess : Bool := true
  resetOnSubmit : Bool := false
  loading : Bool := false

/-- The custom events the component can dispatch. -/
inductive FormEvent where
  | formSubmit (data : List (String × JSVal)) (key : String) (path : String)
  | formError (message : String)
  | formReset
deriving DecidableEq, Repr

/-- The state change performed by `_initializeValues`: replace the value
store and clear all errors. -/
def applyInitValues (st : FormState) : FormState :=
  { st with values := initFormValues st.schema st.data, errors := [] }

/-- The state change performed by `_handleReset`: re-initialize, dismiss the
success banner, clear the global error. -/
def resetState (st : FormState) : FormState :=
  { applyInitValues st with showSuccessMessage := false, globalError := "" }

/-- `_handleReset`: the new state plus the dispatched `form-reset` event. -/
def handleReset (st : FormState) : FormState × List FormEvent :=
  (resetState st, [FormEvent.formReset])

/-! ### Whole-form validation (`_validateForm`) -/

/-- `this._values[fieldName]`: a missing key reads as `undefined`. -/
def lookupVal (values : List (String × JSVal)) (k : String) : JSVal :=
  (lookupKey values k).getD JSVal.undef

/-- The error-store update performed by one `_validateField` call: delete
the field's entry, then store the new message when a rule is violated. -/
def validateFieldUpd (f : FieldSchema) (k : String) (v : JSVal)
    (errors : List (String × String)) : Except Unit (List (String × String)) :=
  match validateField f v with
  | .error e => .error e
  | .ok none => .ok (delKey errors k)
  | .ok (some m) => .ok (setKey (delKey errors k) k m)

/-- `_validateForm`: re-validate every schema field in declaration order
against the current value store, threading the error store. -/
def validateForm (schema : List (String × FieldSchema))
    (values : List (String × JSVal)) (errors : List (String × String)) :
    Except Unit (List (String × String)) :=
  match schema with
  | [] => .ok errors
  | kf :: rest =>
    match validateFieldUpd kf.2 kf.1 (lookupVal values kf.1) errors with
    | .error e => .error e
    | .ok errs => validateForm rest values errs

/-! ### Submission (`_handleSubmit`) -/

/-- `this.schema[key].required` as read while building the payload.  The
value store only ever holds schema keys (see `_initializeValues` and
`_handleInput`), so the `none` branch is unreachable on reachable states;
it is modelled as `false`. -/
def requiredOf (schema : List (String × FieldSchema)) (k : String) : Bool :=
  match lookupKey schema k with
  | some f => f.required
  | none => false

/-- Payload assembly of `_handleSubmit`: keep an entry iff its value is not
the empty string or its field is required. -/
def buildPayload (schema : List (String × FieldSchema))
    (values : List (String × JSVal)) : List (String × JSVal) :=
  values.filter (fun kv => decide (kv.2 ≠ JSVal.str "") || requiredOf schema kv.1)

/-- The observable outcome of one `_handleSubmit` run: the final component
state, the dispatched events in order, and whether a persistence call
(`update` or `push`+`set`) was attempted. -/
structure SubmitEffects where
  state : FormState
  events : List FormEvent
  persisted : Bool

/-- Tail of a successful submission: dispatch `form-submit`, optionally show
the success banner, optionally run `_handleReset` (which also dispatches
`form-reset`); `_loading` is cleared by the `finally` block. -/
def finishSuccess (st : FormState) (payload : List (String × JSVal))
    (persisted : Bool) : SubmitEffects :=
  let evs := [FormEvent.formSubmit payload st.dataKey st.path]
  let st1 := if st.showSuccess then { st with showSuccessMessage := true } else st
  if st1.resetOnSubmit then
    ⟨{ resetState st1 with loading := false }, evs ++ [FormEvent.formReset], persisted⟩
  else
    ⟨{ st1 with loading := false }, evs, persisted⟩

/-- `_handleSubmit` as a function of the pre-state, the outcome the backend
would give to the one persistence call (`Except.ok` carries the key a `push`
would generate), and the current timestamp.  `Except.error` on the outside
models the uncaught TypeError that `_validateForm` can throw; every other
path is total. -/
def handleSubmit (st : FormState) (persist : Except String String) (now : Int) :
    Except Unit SubmitEffects :=
  match validateForm st.schema st.values st.errors with
  | .error e => .error e
  | .ok [] =>
    let st1 : FormState :=
      { st with errors := [], loading := true, globalError := "", showSuccessMessage := false }
    let payload := setKey (buildPayload st1.schema st1.values) "_updatedAt" (JSVal.num now)
    if st1.hasDatabase = true ∧ st1.path ≠ "" then
      if st1.dataKey ≠ "" then
        match persist with
        | .ok _ => .ok (finishSuccess st1 payload true)
        | .error msg =>
          .ok ⟨{ st1 with globalError := msg, loading := false },
            [FormEvent.formError msg], true⟩
      else
        let payload2 := setKey payload "_createdAt" (JSVal.num now)
        match persist with
        | .ok newKey => .ok (finishSuccess { st1 with dataKey := newKey } payload2 true)
        | .error msg =>
          .ok ⟨{ st1 with globalError := msg, loading := false },
            [FormEvent.formError msg], true⟩
    else
      .ok (finishSuccess st1 payload false)
  | .ok (e :: rest) => .ok ⟨{ st with errors := e :: rest }, [], false⟩

/-- The payload a submission dispatches, described independently of the
submission flow (used to state the payload claims): the filtered value
store, an `_updatedAt` stamp, and — exactly when the submission creates a
new record AND persistence is configured — a `_createdAt` stamp. -/
def submitPayload (st : FormState) (now : Int) : List (String × JSVal) :=
  let base := setKey (buildPayload st.schema st.values) "_updatedAt" (JSVal.num now)
  if st.dataKey = "" ∧ st.hasDatabase = true ∧ st.path ≠ "" then
    setKey base "_createdAt" (JSVal.num now)
  else base

/-! ### Group partitioner (`_groupFields`) -/

/-- `field.group || ''`: the bucket name of a field. -/
def groupNameOf (f : FieldSchema) : String :=
  f.group.getD ""

/-- One step of `_groupFields`: create the bucket on first encounter, then
push the field entry at its end (`Map` insertion-order semantics). -/
def pushToGroup : List (String × List α) → String → α → List (String × List α)
  | [], g, x => [(g, [x])]
  | p :: rest, g, x =>
    if p.1 = g then (p.1, p.2 ++ [x]) :: rest else p :: pushToGroup rest g x

/-- `_groupFields`: partition the schema entries into buckets, starting from
a map that already holds the unnamed bucket `''`. -/
def groupFields (schema : List (String × FieldSchema)) :
    List (String × List (String × FieldSchema)) :=
  schema.foldl (fun gs kf => pushToGroup gs (groupNameOf kf.2) kf) [("", [])]

/-- Flattening the partition back: concatenate each bucket's entries in
bucket order (the order `render` walks `groups.entries()`). -/
def flattenGroups (gs : List (String × List α)) : List α :=
  (gs.map Prod.snd).flatten

/-! ### Concrete inputs used by counterexamples and witnesses -/

/-- An optional field with both a length constraint and a positive numeric
lower bound. -/
def cxField9 : FieldSchema := { min := some 5, minLength := some 2 }

/-- An optional field with only a positive numeric lower bound. -/
def wField9 : FieldSchema := { min := some 5 }

/-- A required checkbox carrying a (nonsensical but schema-expressible)
numeric lower bound. -/
def cxField10 : FieldSchema := { type := "checkbox", required := true, min := some 1 }

/-- A plain required checkbox. -/
def wField10 : FieldSchema := { type := "checkbox", required := true }

/-- A plain required text field. -/
def wReq : FieldSchema := { required := true }

/-- A schema whose grouped field precedes an ungrouped one. -/
def cxSchema3 : List (String × FieldSchema) :=
  [("a", { group := some "X" }), ("b", {})]

/-- The grouping example schema of spec §8. -/
def wSchema3 : List (String × FieldSchema) :=
  [("title", { group := some "Meta" }), ("status", { group := some "Meta" }), ("id", {})]

/-- A one-field schema with an existing record carrying one schema key and
one foreign key. -/
def wSchema6 : List (String × FieldSchema) := [("name", { type := "text" })]

/-- Existing-record sample for the value-store claims. -/
def wData6 : List (String × JSVal) := [("name", JSVal.str "Ada"), ("extra", JSVal.num 1)]

/-- A valid filled one-field form with no backend configured. -/
def wSt2 : FormState :=
  { schema := [("name", wReq)], values := [("name", JSVal.str "Ada")] }

/-- A one-required-field form whose field was left empty. -/
def wSt4 : FormState :=
  { schema := [("name", wReq)], values := [("name", JSVal.str "")] }

/-- A valid filled one-field form with a backend and path configured. -/
def wSt7 : FormState :=
  { schema := [("name", wReq)], values := [("name", JSVal.str "Ada")],
    path := "users", hasDatabase := true }

/-! ## Helper lemmas -/

lemma lenLt_none (b : Option Int) : lenLt none b = false := by cases b <;> rfl

lemma lenGt_none (b : Option Int) : lenGt none b = false := by cases b <;> rfl

/-- For a value whose `length` read cannot throw, `_validateField` completes
and returns the message of the first violated rule. -/
lemma validateField_total (f : FieldSchema) (v : JSVal) (h1 : v ≠ JSVal.null)
    (h2 : v ≠ JSVal.undef) : validateField f v = .ok (firstViolatedMsg f v) := by
  cases v with
  | null => exact absurd rfl h1
  | undef => exact absurd rfl h2
  | str s =>
    simp only [validateField, minLengthRule, maxLengthRule, tailRules, JSVal.lengthProp,
      JSVal.truthy, firstViolatedMsg, firstMsg, ruleViolated, ruleMessage, jsLen]
    repeat' split
    all_goals simp_all [lenLt_none, lenGt_none]
  | num n =>
    simp only [validateField, minLengthRule, maxLengthRule, tailRules, JSVal.lengthProp,
      JSVal.truthy, firstViolatedMsg, firstMsg, ruleViolated, ruleMessage, jsLen]
    repeat' split
    all_goals simp_all [lenLt_none, lenGt_none]
  | bool b =>
    simp only [validateField, minLengthRule, maxLengthRule, tailRules, JSVal.lengthProp,
      JSVal.truthy, firstViolatedMsg, firstMsg, ruleViolated, ruleMessage, jsLen]
    repeat' split
    all_goals simp_all [lenLt_none, lenGt_none]

/-- A required field rejects the empty string with the required message,
whatever its other constraints. -/
lemma validateField_req_blank (f : FieldSchema) (hreq : f.required = true) :
    validateField f (JSVal.str "") = .ok (some "This field is required") := by
  simp [validateField, hreq]

/-! ## Claims -/

/-- C1: whenever `_validateField` completes (the spec's own §4.2 edge case —
a length rule reading `.length` of `null`/`undefined` — excluded), its
result is exactly the message of the highest-priority violated rule of the
fixed order required → email → minLength → maxLength → min → max → pattern,
each rule applying only under its stated guard; hence at most one message
per field. -/
theorem claim1_rule_priority_order (f : FieldSchema) (v : JSVal) (r : Option String)
    (h : validateField f v = .ok r) : r = firstViolatedMsg f v := by
  cases v with
  | str s =>
    rw [validateField_total f (JSVal.str s) (by simp) (by simp)] at h
    exact (Except.ok.inj h).symm
  | num n =>
    rw [validateField_total f (JSVal.num n) (by simp) (by simp)] at h
    exact (Except.ok.inj h).symm
  | bool b =>
    rw [validateField_total f (JSVal.bool b) (by simp) (by simp)] at h
    exact (Except.ok.inj h).symm
  | null =>
    simp only [validateField, minLengthRule, maxLengthRule, tailRules, JSVal.lengthProp,
      JSVal.truthy, firstViolatedMsg, firstMsg, ruleViolated, ruleMessage, jsLen] at h ⊢
    repeat' split at h
    all_goals repeat' split
    all_goals simp_all [lenLt_none, lenGt_none]
  | undef =>
    simp only [validateField, minLengthRule, maxLengthRule, tailRules, JSVal.lengthProp,
      JSVal.truthy, firstViolatedMsg, firstMsg, ruleViolated, ruleMessage, jsLen] at h ⊢
    repeat' split at h
    all_goals repeat' split
    all_goals simp_all [lenLt_none, lenGt_none]

/-- Witness for C1: on a required empty field the chain completes and the
result is the required-rule message, the first violated rule. -/
theorem claim1_rule_priority_order_witness :
    some "This field is required" = firstViolatedMsg wReq (JSVal.str "") :=
  claim1_rule_priority_order wReq (JSVal.str "") (some "This field is required") (by decide)

/-- C5: a field with `required = true` rejects `''`, `null` and `undefined`
with "This field is required", and accepts (no violation) every other value
that satisfies all the remaining rules. -/
theorem claim5_required_field (f : FieldSchema) (hreq : f.required = true) :
    (validateField f (JSVal.str "") = .ok (some "This field is required") ∧
     validateField f JSVal.null = .ok (some "This field is required") ∧
     validateField f JSVal.undef = .ok (some "This field is required")) ∧
    (∀ v : JSVal, v ≠ JSVal.str "" → v ≠ JSVal.null → v ≠ JSVal.undef →
      (∀ i : Nat, 1 ≤ i → ruleViolated f v i = false) →
      validateField f v = .ok none) := by
  constructor
  · refine ⟨validateField_req_blank f hreq, ?_, ?_⟩ <;> simp [validateField, hreq]
  · intro v hv1 hv2 hv3 hr
    rw [validateField_total f v hv2 hv3]
    have h1 := hr 1 (by omega)
    have h2 := hr 2 (by omega)
    have h3 := hr 3 (by omega)
    have h4 := hr 4 (by omega)
    have h5 := hr 5 (by omega)
    have h6 := hr 6 (by omega)
    have h0 : ruleViolated f v 0 = false := by
      simp only [ruleViolated]
      simp [hv1, hv2, hv3]
    simp [firstViolatedMsg, firstMsg, h0, h1, h2, h3, h4, h5, h6]

/-- Witness for C5: a plain required field rejects the empty string and
accepts "Ada". -/
theorem claim5_required_field_witness :
    validateField wReq (JSVal.str "") = .ok (some "This field is required") ∧
    validateField wReq (JSVal.str "Ada") = .ok none :=
  ⟨(claim5_required_field wReq rfl).1.1,
   (claim5_required_field wReq rfl).2 (JSVal.str "Ada") (by decide) (by decide) (by decide)
     (by
       intro i hi
       match i with
       | 1 => decide
       | 2 => decide
       | 3 => decide
       | 4 => decide
       | 5 => decide
       | 6 => decide
       | n + 7 => rfl)⟩

/-- Counterexample for C9: `cxField9` is not required and has `min = 5 > 0`,
yet validating the empty-string sentinel yields the higher-priority
minimum-length message, not "Minimum value is 5". -/
theorem claim9_cx :
    validateField cxField9 (JSVal.str "") = .ok (some "Minimum 2 characters required") ∧
    validateField cxField9 (JSVal.str "") ≠ .ok (some "Minimum value is 5") := by
  constructor
  · decide
  · decide

/-- C9 amended: for a field that is not required, has a numeric lower bound
`min = m > 0` and no length constraints set, validating the empty-string
sentinel yields "Minimum value is m": the min rule compares the raw value,
and `''` coerces to `0`. -/
theorem claim9_amended (f : FieldSchema) (m : Int) (hreq : f.required = false)
    (hmin : f.min = some m) (hm : 0 < m) (hminl : f.minLength = none)
    (hmaxl : f.maxLength = none) :
    validateField f (JSVal.str "") = .ok (some ("Minimum value is " ++ toString m)) := by
  have hnum : JSVal.toNum (JSVal.str "") = some 0 := by decide
  simp [validateField, minLengthRule, maxLengthRule, tailRules, numTruthy, jsLt,
    JSVal.truthy, hreq, hmin, hminl, hmaxl, hnum, hm]

/-- Witness for C9 amended at `min = 5`. -/
theorem claim9_amended_witness :
    validateField wField9 (JSVal.str "") = .ok (some ("Minimum value is " ++ toString (5 : Int))) :=
  claim9_amended wField9 5 rfl rfl (by decide) rfl rfl

/-- Counterexample for C10: a required checkbox carrying `min = 1` does not
validate `false` cleanly — the min rule coerces `false` to `0` and fires. -/
theorem claim10_cx :
    validateField cxField10 (JSVal.bool false) ≠ .ok none ∧
    validateField cxField10 (JSVal.bool false) = .ok (some "Minimum value is 1") := by
  constructor
  · decide
  · decide

/-- C10 amended: for a required checkbox field with no numeric bounds set,
validating `false` yields no violation (the required rule fires only on
`''`/`null`/`undefined`), and such a checkbox with no declared default is
initialized to `false`. -/
theorem claim10_amended (f : FieldSchema) (htype : f.type = "checkbox")
    (_hreq : f.required = true) (hmin : f.min = none) (hmax : f.max = none) :
    validateField f (JSVal.bool false) = .ok none ∧
    (f.default = none → defaultValue f = JSVal.bool false) := by
  constructor
  · simp [validateField, minLengthRule, maxLengthRule, tailRules, JSVal.lengthProp,
      JSVal.truthy, htype, hmin, hmax, lenLt_none, lenGt_none]
  · intro hd
    simp [defaultValue, hd, htype]

/-- Witness for C10 amended: a plain required checkbox. -/
theorem claim10_amended_witness :
    validateField wField10 (JSVal.bool false) = .ok none ∧
    (wField10.default = none → defaultValue wField10 = JSVal.bool false) :=
  claim10_amended wField10 rfl rfl rfl rfl

/-! ### Association-list lemmas -/

lemma lookupKey_eq_none_iff (l : List (String × α)) (k : String) :
    lookupKey l k = none ↔ k ∉ l.map Prod.fst := by
  induction l with
  | nil => simp [lookupKey]
  | cons p rest ih =>
    simp only [lookupKey, List.map_cons, List.mem_cons]
    by_cases h : p.1 = k
    · simp [h]
    · simp only [if_neg h, ih]
      constructor
      · rintro hn (h1 | h1)
        · exact h h1.symm
        · exact hn h1
      · exact fun hn h1 => hn (Or.inr h1)

lemma lookupKey_isSome_iff (l : List (String × α)) (k : String) :
    (lookupKey l k).isSome = true ↔ k ∈ l.map Prod.fst := by
  constructor
  · intro h
    by_contra hn
    rw [(lookupKey_eq_none_iff l k).mpr hn] at h
    simp at h
  · intro h
    cases hl : lookupKey l k with
    | some v => rfl
    | none => exact absurd h ((lookupKey_eq_none_iff l k).mp hl)

lemma lookupKey_mem_nodup (l : List (String × α)) (k : String) (v : α)
    (hnd : (l.map Prod.fst).Nodup) (h : (k, v) ∈ l) : lookupKey l k = some v := by
  induction l with
  | nil => simp at h
  | cons p rest ih =>
    rw [List.map_cons, List.nodup_cons] at hnd
    rcases List.mem_cons.mp h with h1 | h1
    · simp [lookupKey, ← h1]
    · have hk : p.1 ≠ k := by
        intro he
        exact hnd.1 (by rw [he]; exact List.mem_map_of_mem Prod.fst h1)
      simp only [lookupKey, if_neg hk]
      exact ih hnd.2 h1

lemma setKey_fresh (l : List (String × α)) (k : String) (v : α)
    (h : k ∉ l.map Prod.fst) : setKey l k v = l ++ [(k, v)] := by
  induction l with
  | nil => rfl
  | cons p rest ih =>
    rw [List.map_cons] at h
    have h1 : p.1 ≠ k := by
      intro he
      exact h (by rw [he]; exact List.mem_cons_self _ _)
    have h2 : k ∉ rest.map Prod.fst := fun hm => h (List.mem_cons_of_mem _ hm)
    simp only [setKey, if_neg h1, ih h2, List.cons_append]

lemma keys_setKey_mem (l : List (String × α)) (k : String) (v : α)
    (h : k ∈ l.map Prod.fst) : (setKey l k v).map Prod.fst = l.map Prod.fst := by
  induction l with
  | nil => simp at h
  | cons p rest ih =>
    by_cases hk : p.1 = k
    · simp [setKey, hk]
    · rw [List.map_cons, List.mem_cons] at h
      rcases h with h1 | h1
      · exact absurd h1.symm hk
      · simp [setKey, hk, ih h1]

lemma lookupKey_setKey_self (l : List (String × α)) (k : String) (v : α) :
    lookupKey (setKey l k v) k = some v := by
  induction l with
  | nil => simp [setKey, lookupKey]
  | cons p rest ih =>
    by_cases hk : p.1 = k
    · simp [setKey, hk, lookupKey]
    · simp [setKey, hk, lookupKey, ih]

lemma lookupKey_setKey_ne (l : List (String × α)) (k : String) (v : α)
    (k' : String) (h : k' ≠ k) : lookupKey (setKey l k v) k' = lookupKey l k' := by
  induction l with
  | nil => simp [setKey, lookupKey, Ne.symm h]
  | cons p rest ih =>
    by_cases hk : p.1 = k
    · have hp : p.1 ≠ k' := by rw [hk]; exact Ne.symm h
      simp only [setKey, if_pos hk, lookupKey, if_neg (Ne.symm h), if_neg hp]
    · simp only [setKey, if_neg hk, lookupKey]
      by_cases hp : p.1 = k'
      · simp [hp]
      · simp [hp, ih]

/-! ### Value-store lemmas -/

lemma keys_map_default (schema : List (String × FieldSchema)) :
    (schema.map (fun kf => (kf.1, defaultValue kf.2))).map Prod.fst
      = schema.map Prod.fst := by
  induction schema <;> simp_all

lemma seedValues_aux (schema : List (String × FieldSchema)) (acc : List (String × JSVal))
    (hnd : (schema.map Prod.fst).Nodup)
    (hdisj : ∀ k, k ∈ schema.map Prod.fst → k ∉ acc.map Prod.fst) :
    schema.foldl (fun vs kf => setKey vs kf.1 (defaultValue kf.2)) acc
      = acc ++ schema.map (fun kf => (kf.1, defaultValue kf.2)) := by
  induction schema generalizing acc with
  | nil => simp
  | cons kf rest ih =>
    rw [List.map_cons, List.nodup_cons] at hnd
    have hdisj2 : ∀ k, k ∈ rest.map Prod.fst →
        k ∉ (acc ++ [(kf.1, defaultValue kf.2)]).map Prod.fst := by
      intro k hk
      rw [List.map_append]
      intro hmem
      rcases List.mem_append.mp hmem with h1 | h1
      · exact hdisj k (List.mem_cons_of_mem _ hk) h1
      · simp at h1
        exact hnd.1 (h1 ▸ hk)
    rw [List.foldl_cons,
      setKey_fresh acc kf.1 _ (hdisj kf.1 (by rw [List.map_cons]; exact List.mem_cons_self _ _)),
      ih (acc ++ [(kf.1, defaultValue kf.2)]) hnd.2 hdisj2]
    simp

lemma seedValues_eq (schema : List (String × FieldSchema))
    (hnd : (schema.map Prod.fst).Nodup) :
    seedValues schema = schema.map (fun kf => (kf.1, defaultValue kf.2)) := by
  simpa [seedValues] using seedValues_aux schema [] hnd (by simp)

lemma keys_overrideData (schema : List (String × FieldSchema))
    (d : List (String × JSVal)) (vs : List (String × JSVal))
    (hsub : ∀ k, k ∈ schema.map Prod.fst → k ∈ vs.map Prod.fst) :
    (overrideData schema vs d).map Prod.fst = vs.map Prod.fst := by
  induction d generalizing vs with
  | nil => rfl
  | cons kv rest ih =>
    show (overrideData schema
      (if (lookupKey schema kv.1).isSome then setKey vs kv.1 kv.2 else vs) rest).map Prod.fst
        = vs.map Prod.fst
    by_cases h : (lookupKey schema kv.1).isSome = true
    · have hmem : kv.1 ∈ vs.map Prod.fst :=
        hsub kv.1 ((lookupKey_isSome_iff schema kv.1).mp h)
      have hkeys := keys_setKey_mem vs kv.1 kv.2 hmem
      rw [if_pos h, ih (setKey vs kv.1 kv.2) (fun k hk => hkeys.symm ▸ hsub k hk)]
      exact hkeys
    · rw [if_neg h]
      exact ih vs hsub

lemma lookupKey_overrideData (schema : List (String × FieldSchema))
    (vs : List (String × JSVal)) (d : List (String × JSVal)) (k : String)
    (hd : (d.map Prod.fst).Nodup) :
    lookupKey (overrideData schema vs d) k =
      if (lookupKey schema k).isSome = true ∧ (lookupKey d k).isSome = true then
        lookupKey d k
      else lookupKey vs k := by
  induction d generalizing vs with
  | nil => simp [overrideData, lookupKey]
  | cons kv rest ih =>
    rw [List.map_cons, List.nodup_cons] at hd
    show lookupKey (overrideData schema
      (if (lookupKey schema kv.1).isSome then setKey vs kv.1 kv.2 else vs) rest) k = _
    rw [ih _ hd.2]
    by_cases hk : kv.1 = k
    · subst hk
      have h1 : lookupKey rest kv.1 = none := (lookupKey_eq_none_iff rest kv.1).mpr hd.1
      rw [h1]
      simp only [Option.isSome_none, Bool.false_eq_true, and_false, if_false]
      by_cases h2 : (lookupKey schema kv.1).isSome = true
      · rw [if_pos h2, lookupKey_setKey_self]
        simp [lookupKey, h2]
      · rw [if_neg h2]
        simp [lookupKey, h2]
    · have h1 : lookupKey (kv :: rest) k = lookupKey rest k := by
        simp [lookupKey, hk]
      rw [h1]
      by_cases h2 : (lookupKey schema kv.1).isSome = true
      · rw [if_pos h2, lookupKey_setKey_ne vs kv.1 kv.2 k (fun he => hk he.symm)]
      · rw [if_neg h2]

/-- C6: initialization gives every schema field its declared default, else
`false` for checkboxes, else `''`; keys present in both the supplied record
and the schema are overwritten with the record's value; record keys outside
the schema are ignored — the store's keys are exactly the schema's keys —
and all errors are cleared. -/
theorem claim6_value_store (schema : List (String × FieldSchema)) (d : List (String × JSVal))
    (hs : (schema.map Prod.fst).Nodup) (hd : (d.map Prod.fst).Nodup) :
    (∀ kf ∈ schema, lookupKey (initFormValues schema none) kf.1 = some (defaultValue kf.2)) ∧
    (∀ kf ∈ schema, lookupKey (initFormValues schema (some d)) kf.1 =
      some ((lookupKey d kf.1).getD (defaultValue kf.2))) ∧
    (initFormValues schema (some d)).map Prod.fst = schema.map Prod.fst ∧
    (∀ st : FormState, (applyInitValues st).errors = []) := by
  have hkeys : (schema.map (fun kf => (kf.1, defaultValue kf.2))).map Prod.fst
      = schema.map Prod.fst := keys_map_default schema
  have hseed : ∀ kf ∈ schema, lookupKey (seedValues schema) kf.1 = some (defaultValue kf.2) := by
    intro kf hkf
    rw [seedValues_eq schema hs]
    exact lookupKey_mem_nodup _ _ _ (hkeys.symm ▸ hs)
      (List.mem_map_of_mem (fun kf => (kf.1, defaultValue kf.2)) hkf)
  refine ⟨hseed, ?_, ?_, fun st => rfl⟩
  · intro kf hkf
    show lookupKey (overrideData schema (seedValues schema) d) kf.1 = _
    rw [lookupKey_overrideData schema (seedValues schema) d kf.1 hd]
    have hsch : lookupKey schema kf.1 = some kf.2 := lookupKey_mem_nodup _ _ _ hs hkf
    cases hdl : lookupKey d kf.1 with
    | some w => simp [hsch, hdl]
    | none => simp [hsch, hdl, hseed kf hkf]
  · have hsub : ∀ k, k ∈ schema.map Prod.fst → k ∈ (seedValues schema).map Prod.fst := by
      intro k hk
      rw [seedValues_eq schema hs, hkeys]
      exact hk
    show (overrideData schema (seedValues schema) d).map Prod.fst = _
    rw [keys_overrideData schema d (seedValues schema) hsub, seedValues_eq schema hs, hkeys]

/-- Witness for C6 on the spec §8 example: `{name:{type:'text'}}` seeds `''`,
record `{name:'Ada'}` overrides it, and the foreign record key `extra` does
not enter the store. -/
theorem claim6_value_store_witness :
    lookupKey (initFormValues wSchema6 none) "name" = some (JSVal.str "") ∧
    lookupKey (initFormValues wSchema6 (some wData6)) "name" = some (JSVal.str "Ada") ∧
    (initFormValues wSchema6 (some wData6)).map Prod.fst = ["name"] := by
  obtain ⟨ha, hb, hc, _⟩ := claim6_value_store wSchema6 wData6 (by decide) (by decide)
  refine ⟨?_, ?_, ?_⟩
  · exact (ha ("name", { type := "text" }) (by simp [wSchema6])).trans (by decide)
  · exact (hb ("name", { type := "text" }) (by simp [wSchema6])).trans (by decide)
  · exact hc.trans (by decide)

/-- C8: the reset procedure is idempotent — applying it twice gives exactly
the state of applying it once — and the post-reset value/error stores are
derived solely from the schema and the last-assigned external record,
independent of prior user edits. -/
theorem claim8_reset_idem (st : FormState) :
    resetState (resetState st) = resetState st ∧
    (resetState st).values = initFormValues st.schema st.data ∧
    (resetState st).errors = [] :=
  ⟨rfl, rfl, rfl⟩

/-! ### Group-partition lemmas -/

lemma flatten_pushToGroup (gs : List (String × List α)) (g : String) (x : α) :
    (flattenGroups (pushToGroup gs g x)).Perm (flattenGroups gs ++ [x]) := by
  induction gs with
  | nil => simp [pushToGroup, flattenGroups]
  | cons p rest ih =>
    simp only [flattenGroups] at ih ⊢
    by_cases h : p.1 = g
    · simp only [pushToGroup, if_pos h, List.map_cons, List.flatten_cons]
      rw [List.append_assoc, List.append_assoc]
      exact List.Perm.append_left p.2 List.perm_append_comm
    · simp only [pushToGroup, if_neg h, List.map_cons, List.flatten_cons]
      rw [List.append_assoc]
      exact List.Perm.append_left p.2 ih

lemma flatten_groupFold (l : List (String × FieldSchema))
    (gs : List (String × List (String × FieldSchema))) :
    (flattenGroups (l.foldl (fun a kf => pushToGroup a (groupNameOf kf.2) kf) gs)).Perm
      (flattenGroups gs ++ l) := by
  induction l generalizing gs with
  | nil => simp
  | cons kf rest ih =>
    rw [List.foldl_cons]
    refine (ih (pushToGroup gs (groupNameOf kf.2) kf)).trans ?_
    refine ((flatten_pushToGroup gs (groupNameOf kf.2) kf).append_right rest).trans ?_
    rw [List.append_assoc, List.singleton_append]

lemma lookupKey_pushToGroup (gs : List (String × List α)) (g : String) (x : α) (k : String) :
    lookupKey (pushToGroup gs g x) k =
      if k = g then some ((lookupKey gs g).getD [] ++ [x]) else lookupKey gs k := by
  induction gs with
  | nil =>
    by_cases h : k = g
    · subst h
      simp [pushToGroup, lookupKey]
    · simp [pushToGroup, lookupKey, h, Ne.symm h]
  | cons p rest ih =>
    by_cases h1 : p.1 = g
    · by_cases h2 : k = g
      · subst h2
        simp [pushToGroup, lookupKey, h1]
      · have hp : p.1 ≠ k := by rw [h1]; exact Ne.symm h2
        simp [pushToGroup, lookupKey, h1, hp, h2, Ne.symm h2]
    · by_cases h2 : p.1 = k
      · have hkg : k ≠ g := by rw [← h2]; exact h1
        simp [pushToGroup, lookupKey, h1, h2, hkg]
      · simp [pushToGroup, lookupKey, h1, h2, ih]

lemma lookupKey_groupFold (l : List (String × FieldSchema))
    (gs : List (String × List (String × FieldSchema))) (g : String) :
    lookupKey (l.foldl (fun a kf => pushToGroup a (groupNameOf kf.2) kf) gs) g =
      if (lookupKey gs g).isSome = true ∨ l.any (fun kf => groupNameOf kf.2 == g) then
        some ((lookupKey gs g).getD [] ++ l.filter (fun kf => groupNameOf kf.2 == g))
      else none := by
  induction l generalizing gs with
  | nil => cases h : lookupKey gs g <;> simp [h]
  | cons kf rest ih =>
    rw [List.foldl_cons, ih, lookupKey_pushToGroup]
    by_cases hg : groupNameOf kf.2 = g
    · subst hg
      simp [List.filter_cons, List.append_assoc]
    · have hbeq : (groupNameOf kf.2 == g) = false := by
        simp [hg]
      have hne : ¬ g = groupNameOf kf.2 := fun he => hg he.symm
      have h1 : (if g = groupNameOf kf.2
          then some ((lookupKey gs (groupNameOf kf.2)).getD [] ++ [kf])
          else lookupKey gs g) = lookupKey gs g := if_neg hne
      rw [h1, List.any_cons, List.filter_cons, hbeq]
      exact if_congr (by simp) rfl rfl

lemma lookupKey_groupFields (schema : List (String × FieldSchema)) (g : String)
    (fs : List (String × FieldSchema))
    (h : lookupKey (groupFields schema) g = some fs) :
    fs = schema.filter (fun kf => groupNameOf kf.2 == g) := by
  rw [groupFields, lookupKey_groupFold] at h
  have hinit : lookupKey [("", ([] : List (String × FieldSchema)))] g
      = if "" = g then some [] else none := rfl
  rw [hinit] at h
  by_cases hg : "" = g
  · rw [if_pos hg] at h
    simp at h
    exact h.symm
  · rw [if_neg hg] at h
    by_cases ha : schema.any (fun kf => groupNameOf kf.2 == g) = true
    · simp [ha] at h
      exact h.symm
    · simp [ha] at h

/-- Counterexample for C3: with a grouped field declared before an ungrouped
one, flattening the partition does not reproduce the declaration order (the
unnamed bucket always comes first). -/
theorem claim3_roundtrip_cx :
    (flattenGroups (groupFields cxSchema3)).map Prod.fst ≠ cxSchema3.map Prod.fst := by
  decide

/-- C3 amended: flattening the partition yields a permutation of the
schema's entries, and every emitted bucket holds exactly the schema's fields
of that group in declaration order; the flattened sequence equals the
declaration order only when the unnamed bucket's fields all precede the
grouped ones and each group is contiguous. -/
theorem claim3_partition_amended (schema : List (String × FieldSchema)) :
    (flattenGroups (groupFields schema)).Perm schema ∧
    (∀ g fs, lookupKey (groupFields schema) g = some fs →
      fs = schema.filter (fun kf => groupNameOf kf.2 == g)) := by
  constructor
  · simpa using flatten_groupFold schema [("", [])]
  · exact fun g fs h => lookupKey_groupFields schema g fs h

/-- Witness for C3 amended on the spec §8 grouping example. -/
theorem claim3_partition_amended_witness :
    (flattenGroups (groupFields wSchema3)).Perm wSchema3 ∧
    [("title", ({ group := some "Meta" } : FieldSchema)), ("status", { group := some "Meta" })]
      = wSchema3.filter (fun kf => groupNameOf kf.2 == "Meta") :=
  ⟨(claim3_partition_amended wSchema3).1,
   (claim3_partition_amended wSchema3).2 "Meta"
     [("title", { group := some "Meta" }), ("status", { group := some "Meta" })] rfl⟩

/-! ### Whole-form validation lemmas -/

lemma delKey_not_mem (l : List (String × α)) (k : String) (h : k ∉ l.map Prod.fst) :
    delKey l k = l := by
  induction l with
  | nil => rfl
  | cons p rest ih =>
    rw [List.map_cons] at h
    have h1 : p.1 ≠ k := fun he => h (by rw [he]; exact List.mem_cons_self _ _)
    have h2 : k ∉ rest.map Prod.fst := fun hm => h (List.mem_cons_of_mem _ hm)
    simp [delKey, h1, ih h2]

lemma validateForm_ok_none (values : List (String × JSVal))
    (l : List (String × FieldSchema)) (errs : List (String × String))
    (h : ∀ kf ∈ l, validateField kf.2 (lookupVal values kf.1) = .ok none ∧
      kf.1 ∉ errs.map Prod.fst) :
    validateForm l values errs = .ok errs := by
  induction l with
  | nil => rfl
  | cons kf rest ih =>
    have h1 := h kf (List.mem_cons_self _ _)
    simp only [validateForm, validateFieldUpd, h1.1, delKey_not_mem errs kf.1 h1.2]
    exact ih (fun kf2 hm => h kf2 (List.mem_cons_of_mem _ hm))

lemma validateForm_append (l1 l2 : List (String × FieldSchema))
    (values : List (String × JSVal)) (errs : List (String × String)) :
    validateForm (l1 ++ l2) values errs =
      match validateForm l1 values errs with
      | .error e => .error e
      | .ok errs2 => validateForm l2 values errs2 := by
  induction l1 generalizing errs with
  | nil => simp [validateForm]
  | cons kf rest ih =>
    simp only [List.cons_append, validateForm]
    cases validateFieldUpd kf.2 kf.1 (lookupVal values kf.1) errs with
    | error e => rfl
    | ok errs2 => exact ih errs2

/-- A form whose only rule violation is one required field left empty ends
whole-form validation with exactly that one message. -/
lemma validateForm_single (values : List (String × JSVal))
    (pre post : List (String × FieldSchema)) (fname : String) (ff : FieldSchema)
    (hpre : ∀ kf ∈ pre, validateField kf.2 (lookupVal values kf.1) = .ok none)
    (hpost : ∀ kf ∈ post, validateField kf.2 (lookupVal values kf.1) = .ok none ∧
      kf.1 ≠ fname)
    (hf : validateField ff (lookupVal values fname) = .ok (some "This field is required")) :
    validateForm (pre ++ (fname, ff) :: post) values []
      = .ok [(fname, "This field is required")] := by
  rw [validateForm_append]
  rw [validateForm_ok_none values pre [] (fun kf hm => ⟨hpre kf hm, by simp⟩)]
  simp only [validateForm, validateFieldUpd, hf, delKey]
  exact validateForm_ok_none values post [(fname, "This field is required")]
    (fun kf hm => ⟨(hpost kf hm).1, by
      rw [List.map_cons, List.map_nil]
      simp [(hpost kf hm).2]⟩)

/-- C4: a submission whose whole-form validation leaves errors terminates
immediately: the only state change is the new error store, no event is
dispatched, no persistence call is attempted (and so no payload reaches the
backend); in particular a form with exactly one required field left empty
ends with exactly one message keyed to that field and no form-submit
event. -/
theorem claim4_validation_reject :
    (∀ (st : FormState) (persist : Except String String) (now : Int)
      (errs : List (String × String)),
      validateForm st.schema st.values st.errors = .ok errs → errs ≠ [] →
      handleSubmit st persist now = .ok ⟨{ st with errors := errs }, [], false⟩) ∧
    (∀ (st : FormState) (persist : Except String String) (now : Int)
      (pre post : List (String × FieldSchema)) (fname : String) (ff : FieldSchema),
      st.schema = pre ++ (fname, ff) :: post → st.errors = [] →
      ff.required = true → lookupVal st.values fname = JSVal.str "" →
      (∀ kf ∈ pre, validateField kf.2 (lookupVal st.values kf.1) = .ok none) →
      (∀ kf ∈ post, validateField kf.2 (lookupVal st.values kf.1) = .ok none ∧
        kf.1 ≠ fname) →
      handleSubmit st persist now =
        .ok ⟨{ st with errors := [(fname, "This field is required")] }, [], false⟩) := by
  constructor
  · intro st persist now errs hv hne
    cases errs with
    | nil => exact absurd rfl hne
    | cons e rest => simp [handleSubmit, hv]
  · intro st persist now pre post fname ff hschema herr hreq hval hpre hpost
    have hform : validateForm st.schema st.values st.errors
        = .ok [(fname, "This field is required")] := by
      rw [hschema, herr]
      exact validateForm_single st.values pre post fname ff hpre hpost
        (by rw [hval]; exact validateField_req_blank ff hreq)
    simp [handleSubmit, hform]

/-- Witness for C4: a one-field form with the required field empty. -/
theorem claim4_validation_reject_witness :
    handleSubmit wSt4 (Except.ok "k1") 5 =
      .ok ⟨{ wSt4 with errors := [("name", "This field is required")] }, [], false⟩ :=
  claim4_validation_reject.2 wSt4 (Except.ok "k1") 5 [] [] "name" wReq rfl rfl rfl
    (by decide)
    (fun kf hm => absurd hm (List.not_mem_nil kf))
    (fun kf hm => absurd hm (List.not_mem_nil kf))

/-- C7: when the persistence call fails on a valid submission, the failure
surfaces as the single global error message plus one form-error event, no
form-submit event is dispatched, and no local state is rolled back — in
particular the value store still holds the attempted input. -/
theorem claim7_persistence_failure (st : FormState) (msg : String) (now : Int)
    (hv : validateForm st.schema st.values st.errors = .ok [])
    (hdb : st.hasDatabase = true) (hpath : st.path ≠ "") :
    handleSubmit st (.error msg) now =
      .ok ⟨{ st with
              errors := [],
              loading := false,
              globalError := msg,
              showSuccessMessage := false },
           [FormEvent.formError msg], true⟩ ∧
    ({ st with
        errors := [],
        loading := false,
        globalError := msg,
        showSuccessMessage := false } : FormState).values = st.values := by
  refine ⟨?_, rfl⟩
  simp only [handleSubmit, hv]
  rw [if_pos ⟨hdb, hpath⟩]
  by_cases hk : st.dataKey ≠ ""
  · rw [if_pos hk]
  · rw [if_neg hk]

/-- Witness for C7: a configured one-field form whose backend write fails. -/
theorem claim7_persistence_failure_witness :
    handleSubmit wSt7 (.error "boom") 5 =
      .ok ⟨{ wSt7 with
              errors := [],
              loading := false,
              globalError := "boom",
              showSuccessMessage := false }, [FormEvent.formError "boom"], true⟩ ∧
    ({ wSt7 with
        errors := [],
        loading := false,
        globalError := "boom",
        showSuccessMessage := false } : FormState).values = wSt7.values :=
  claim7_persistence_failure wSt7 "boom" 5 (by decide) rfl (by decide)

/-! ### Payload lemmas -/

lemma lookupKey_filter (p : String × JSVal → Bool) (l : List (String × JSVal))
    (hnd : (l.map Prod.fst).Nodup) (k : String) :
    lookupKey (l.filter p) k =
      match lookupKey l k with
      | some v => if p (k, v) then some v else none
      | none => none := by
  induction l with
  | nil => simp [lookupKey]
  | cons q rest ih =>
    rw [List.map_cons, List.nodup_cons] at hnd
    rw [List.filter_cons]
    by_cases hq : q.1 = k
    · have hkn : k ∉ rest.map Prod.fst := hq ▸ hnd.1
      have hfn : lookupKey (rest.filter p) k = none := by
        have hsub : List.Sublist ((rest.filter p).map Prod.fst) (rest.map Prod.fst) :=
          List.Sublist.map Prod.fst (List.filter_sublist rest)
        exact (lookupKey_eq_none_iff _ _).mpr (fun hm => hkn (hsub.subset hm))
      by_cases hp : p q = true
      · rw [if_pos hp]
        have hpk : p (k, q.2) = true := by rw [← hq]; exact hp
        simp [lookupKey, hq, hpk]
      · rw [if_neg hp]
        have hpf : p q = false := by revert hp; cases p q <;> simp
        have hpk : p (k, q.2) = false := by rw [← hq]; exact hpf
        simp [lookupKey, hq, hpk, hfn]
    · by_cases hp : p q = true
      · rw [if_pos hp]
        simp only [lookupKey, if_neg hq]
        exact ih hnd.2
      · rw [if_neg hp]
        simp only [lookupKey, if_neg hq]
        exact ih hnd.2

lemma buildPayload_lookup (schema : List (String × FieldSchema))
    (values : List (String × JSVal)) (hnd : (values.map Prod.fst).Nodup) (k : String) :
    lookupKey (buildPayload schema values) k =
      match lookupKey values k with
      | some v => if decide (v ≠ JSVal.str "") || requiredOf schema k then some v else none
      | none => none := by
  rw [buildPayload, lookupKey_filter _ _ hnd]

lemma buildPayload_isSome_iff (schema : List (String × FieldSchema))
    (values : List (String × JSVal)) (hnd : (values.map Prod.fst).Nodup) (k : String) :
    (lookupKey (buildPayload schema values) k).isSome = true ↔
      ∃ v, lookupKey values k = some v ∧
        (v ≠ JSVal.str "" ∨ requiredOf schema k = true) := by
  rw [buildPayload_lookup schema values hnd k]
  cases h : lookupKey values k with
  | none => simp
  | some v =>
    by_cases h1 : v = JSVal.str ""
    · subst h1
      by_cases h2 : requiredOf schema k = true <;> simp [h2]
    · simp [h1]

lemma buildPayload_lookup_none (schema : List (String × FieldSchema))
    (values : List (String × JSVal)) (k : String) (h : k ∉ values.map Prod.fst) :
    lookupKey (buildPayload schema values) k = none := by
  rw [buildPayload]
  have hsub : List.Sublist ((values.filter
      (fun kv => decide (kv.2 ≠ JSVal.str "") || requiredOf schema kv.1)).map Prod.fst)
        (values.map Prod.fst) :=
    List.Sublist.map Prod.fst (List.filter_sublist values)
  exact (lookupKey_eq_none_iff _ _).mpr (fun hm => h (hsub.subset hm))

lemma finishSuccess_events_head (st : FormState) (payload : List (String × JSVal)) (b : Bool) :
    (finishSuccess st payload b).events.head?
      = some (FormEvent.formSubmit payload st.dataKey st.path) := by
  unfold finishSuccess
  by_cases h1 : st.showSuccess = true <;> by_cases h2 : st.resetOnSubmit = true <;>
    simp [h1, h2]

/-- Counterexample for C2: a valid client-side submission (no backend
handle configured) that creates a new record (no data key supplied) emits a
payload with no created-at field at all. -/
theorem claim2_created_at_cx :
    wSt2.dataKey = "" ∧
    (handleSubmit wSt2 (.ok "k1") 5).toOption.map SubmitEffects.events =
      some [FormEvent.formSubmit [("name", JSVal.str "Ada"), ("_updatedAt", JSVal.num 5)] "" ""] ∧
    lookupKey [("name", JSVal.str "Ada"), ("_updatedAt", JSVal.num 5)] "_createdAt" = none := by
  refine ⟨rfl, ?_, by decide⟩
  decide

/-- C2 amended: a valid submission dispatches a payload that contains a
field's key iff its value is non-empty or the field is required, always
carries `_updatedAt`, and carries `_createdAt` exactly when the submission
is a new record (no data key) AND persistence is configured (database
handle present and path non-empty). -/
theorem claim2_payload_amended (st : FormState) (now : Int) (newKey : String)
    (hv : validateForm st.schema st.values st.errors = .ok [])
    (hnd : (st.values.map Prod.fst).Nodup)
    (hca : "_createdAt" ∉ st.values.map Prod.fst) :
    (handleSubmit st (.ok newKey) now).toOption.map (fun eff => eff.events.head?)
      = some (some (FormEvent.formSubmit (submitPayload st now)
          (if st.dataKey = "" ∧ st.hasDatabase = true ∧ st.path ≠ "" then newKey
           else st.dataKey) st.path)) ∧
    lookupKey (submitPayload st now) "_updatedAt" = some (JSVal.num now) ∧
    (∀ k, k ≠ "_updatedAt" → k ≠ "_createdAt" →
      ((lookupKey (submitPayload st now) k).isSome = true ↔
        ∃ v, lookupKey st.values k = some v ∧
          (v ≠ JSVal.str "" ∨ requiredOf st.schema k = true))) ∧
    lookupKey (submitPayload st now) "_createdAt"
      = (if st.dataKey = "" ∧ st.hasDatabase = true ∧ st.path ≠ "" then
          some (JSVal.num now) else none) := by
  have hU1 : lookupKey (setKey (buildPayload st.schema st.values) "_updatedAt"
      (JSVal.num now)) "_updatedAt" = some (JSVal.num now) := lookupKey_setKey_self _ _ _
  have hUca : lookupKey (setKey (buildPayload st.schema st.values) "_updatedAt"
      (JSVal.num now)) "_createdAt" = none := by
    rw [lookupKey_setKey_ne _ _ _ _ (by decide)]
    exact buildPayload_lookup_none st.schema st.values _ hca
  have h2' : lookupKey (submitPayload st now) "_updatedAt" = some (JSVal.num now) := by
    simp only [submitPayload]
    by_cases hcond : st.dataKey = "" ∧ st.hasDatabase = true ∧ st.path ≠ ""
    · rw [if_pos hcond, lookupKey_setKey_ne _ _ _ _ (by decide)]
      exact hU1
    · rw [if_neg hcond]
      exact hU1
  have h3' : ∀ k, k ≠ "_updatedAt" → k ≠ "_createdAt" →
      ((lookupKey (submitPayload st now) k).isSome = true ↔
        ∃ v, lookupKey st.values k = some v ∧
          (v ≠ JSVal.str "" ∨ requiredOf st.schema k = true)) := by
    intro k hk1 hk2
    simp only [submitPayload]
    by_cases hcond : st.dataKey = "" ∧ st.hasDatabase = true ∧ st.path ≠ ""
    · rw [if_pos hcond, lookupKey_setKey_ne _ _ _ _ hk2, lookupKey_setKey_ne _ _ _ _ hk1]
      exact buildPayload_isSome_iff st.schema st.values hnd k
    · rw [if_neg hcond, lookupKey_setKey_ne _ _ _ _ hk1]
      exact buildPayload_isSome_iff st.schema st.values hnd k
  have h4' : lookupKey (submitPayload st now) "_createdAt"
      = (if st.dataKey = "" ∧ st.hasDatabase = true ∧ st.path ≠ "" then
          some (JSVal.num now) else none) := by
    simp only [submitPayload]
    by_cases hcond : st.dataKey = "" ∧ st.hasDatabase = true ∧ st.path ≠ ""
    · rw [if_pos hcond, if_pos hcond]
      exact lookupKey_setKey_self _ _ _
    · rw [if_neg hcond, if_neg hcond]
      exact hUca
  refine ⟨?_, h2', h3', h4'⟩
  simp only [handleSubmit, hv]
  by_cases hdb : st.hasDatabase = true ∧ st.path ≠ ""
  · rw [if_pos hdb]
    by_cases hk : st.dataKey ≠ ""
    · rw [if_pos hk]
      have hcond : ¬(st.dataKey = "" ∧ st.hasDatabase = true ∧ st.path ≠ "") :=
        fun hc => hk hc.1
      simp only [Except.toOption, Option.map]
      rw [finishSuccess_events_head]
      simp only [submitPayload]
      rw [if_neg hcond, if_neg hcond]
    · rw [if_neg hk]
      have hds : st.dataKey = "" := not_not.mp hk
      have hcond : st.dataKey = "" ∧ st.hasDatabase = true ∧ st.path ≠ "" :=
        ⟨hds, hdb.1, hdb.2⟩
      simp only [Except.toOption, Option.map]
      rw [finishSuccess_events_head]
      simp only [submitPayload]
      rw [if_pos hcond, if_pos hcond]
  · rw [if_neg hdb]
    have hcond : ¬(st.dataKey = "" ∧ st.hasDatabase = true ∧ st.path ≠ "") :=
      fun hc => hdb ⟨hc.2.1, hc.2.2⟩
    simp only [Except.toOption, Option.map]
    rw [finishSuccess_events_head]
    simp only [submitPayload]
    rw [if_neg hcond, if_neg hcond]

/-- Witness for C2 amended: the client-side one-field form, with the
per-key equivalence instantiated at the schema field "name". -/
theorem claim2_payload_amended_witness :
    (handleSubmit wSt2 (.ok "k9") 5).toOption.map (fun eff => eff.events.head?)
      = some (some (FormEvent.formSubmit (submitPayload wSt2 5)
          (if wSt2.dataKey = "" ∧ wSt2.hasDatabase = true ∧ wSt2.path ≠ "" then "k9"
           else wSt2.dataKey) wSt2.path)) ∧
    lookupKey (submitPayload wSt2 5) "_updatedAt" = some (JSVal.num 5) ∧
    ((lookupKey (submitPayload wSt2 5) "name").isSome = true ↔
      ∃ v, lookupKey wSt2.values "name" = some v ∧
        (v ≠ JSVal.str "" ∨ requiredOf wSt2.schema "name" = true)) ∧
    lookupKey (submitPayload wSt2 5) "_createdAt"
      = (if wSt2.dataKey = "" ∧ wSt2.hasDatabase = true ∧ wSt2.path ≠ "" then
          some (JSVal.num 5) else none) := by
  obtain ⟨h1, h2, h3, h4⟩ :=
    claim2_payload_amended wSt2 5 "k9" (by decide) (by decide) (by decide)
  exact ⟨h1, h2, h3 "name" (by decide) (by decide), h4⟩

end Autoform
